import Mathlib

/-!
# Verification of the fireworks particle engine and gesture trigger controller

Shallow embedding of the core of the `ainfinite-fireworks` repository
(`GameCanvas` component): the `Particle` physics unit, the explosion
composer `triggerFirework`, the per-frame pool update/cull pass, the
gesture classifier fed by the hand-tracking callback `onResults`, and the
per-lane trigger controller of `draw`.

Numeric values are modelled over `ℚ` (JavaScript numbers, with every
`Math.random()` draw turned into an explicit input, assumed to lie in
`[0,1)` where a claim needs it).  The gesture classifier computes genuine
Euclidean distances via `Math.sqrt`, so that one component is modelled
over `ℝ` with `Real.sqrt`.
-/

namespace Fireworks

/-- The two fixed hand identities tracked by the component
(the `'Left'` / `'Right'` labels of the source). -/
inductive Lane where
  | left
  | right
deriving DecidableEq, Repr

/-- Discrete per-lane hand state (`HandState` enum of `types.ts`). -/
inductive HandState where
  | OPEN
  | FIST
  | UNKNOWN
deriving DecidableEq, Repr

/-- JS helper `randomRange(min, max) = Math.random() * (max - min) + min`,
with the `Math.random()` draw `r` made explicit. -/
def randomRange (min max r : ℚ) : ℚ := r * (max - min) + min

/-- Pool cap constant `MAX_PARTICLES = 2000`. -/
def MAX_PARTICLES : ℕ := 2000

/-- The `Particle` class: position, velocity, color, fade state and the
per-frame physics constants. -/
structure Particle where
  x : ℚ
  y : ℚ
  vx : ℚ
  vy : ℚ
  hue : ℚ
  lightness : ℚ
  alpha : ℚ
  decay : ℚ
  friction : ℚ
  gravity : ℚ
  size : ℚ
deriving DecidableEq, Repr

/-- The `Particle` constructor.  `rL`, `rD`, `rS` are the three
`Math.random()` draws of the constructor body (lightness jitter, decay
roll, size jitter). -/
def Particle.create (x y hue : ℚ) (velocity : ℚ × ℚ) (lightness size rL rD rS : ℚ) :
    Particle where
  x := x
  y := y
  vx := velocity.1
  vy := velocity.2
  hue := hue
  lightness := lightness + rL * 10
  alpha := 1
  decay := 12/1000 + rD * (18/1000)
  friction := 98/100
  gravity := 4/100
  size := size + rS * 2

/-- `Particle.update()`: friction on both velocity axes, then gravity on
`vy`, then velocity added to position, then decay subtracted from alpha. -/
def Particle.update (p : Particle) : Particle :=
  let vx := p.vx * p.friction
  let vy := p.vy * p.friction
  let vy2 := vy + p.gravity
  { p with
    vx := vx
    vy := vy2
    x := p.x + vx
    y := p.y + vy2
    alpha := p.alpha - p.decay }

/-- `Particle.isDead()`: `alpha <= 0`. -/
def Particle.isDead (p : Particle) : Bool := p.alpha ≤ 0

/-- Elementary transformation: velocity multiplied by friction on both axes. -/
def applyFriction (p : Particle) : Particle :=
  { p with vx := p.vx * p.friction, vy := p.vy * p.friction }

/-- Elementary transformation: gravity added to the vertical velocity. -/
def applyGravity (p : Particle) : Particle :=
  { p with vy := p.vy + p.gravity }

/-- Elementary transformation: velocity added to position. -/
def applyVelocity (p : Particle) : Particle :=
  { p with x := p.x + p.vx, y := p.y + p.vy }

/-- Elementary transformation: decay subtracted from alpha. -/
def applyDecay (p : Particle) : Particle :=
  { p with alpha := p.alpha - p.decay }

/-- The five explosion styles of `EXPLOSION_STYLES`. -/
inductive ExplosionStyle where
  | circle
  | ring
  | burst
  | willow
  | chrysanthemum
deriving DecidableEq, Repr

/-- `EXPLOSION_STYLES` as an indexable list, in source order. -/
def EXPLOSION_STYLES : List ExplosionStyle :=
  [.circle, .ring, .burst, .willow, .chrysanthemum]

/-- The hues of `COLOR_PALETTES`, in source order (the palette names play no
computational role). -/
def COLOR_PALETTES : List ℤ :=
  [0, 15, 30, 45, 55, 120, 160, 200, 240, 280, 300, 330]

/-- `randomChoice(arr) = arr[Math.floor(Math.random() * arr.length)]`, with
the `Math.random()` draw `r` made explicit; for `r ∈ [0,1)` the index is in
range, and an (unreachable) out-of-range index yields the supplied default. -/
def randomChoice {α : Type} (arr : List α) (dflt : α) (r : ℚ) : α :=
  arr.getD (Int.toNat ⌊r * arr.length⌋) dflt

/-- The `Math.random()` draws consumed for one particle of an explosion
batch, made explicit.  `cosAngle` and `sinAngle` stand for
`Math.cos(angle)` and `Math.sin(angle)` of the uniformly drawn angle, the
only use made of the angle.  The `rStyle*` draws feed the style-specific
`switch` branches (a branch that draws nothing ignores them), and the
`rCtor*` draws feed the `Particle` constructor body. -/
structure ParticleRoll where
  cosAngle : ℚ
  sinAngle : ℚ
  rVelocity : ℚ
  rHue : ℚ
  rLightness : ℚ
  rDecay : ℚ
  rGate : ℚ
  rStyleVelocity : ℚ
  rStyleDecay : ℚ
  rStyleLightness : ℚ
  rCtorLightness : ℚ
  rCtorDecay : ℚ
  rCtorSize : ℚ
deriving DecidableEq, Repr

/-- Scalar parameters of one particle after the per-particle defaults and
the style `switch` of `triggerFirework`. -/
structure ParticleParams where
  velocity : ℚ
  hueVariation : ℚ
  lightness : ℚ
  size : ℚ
  decay : ℚ
  gravity : ℚ
deriving DecidableEq, Repr

/-- The per-particle body of the `triggerFirework` loop, up to the
`new Particle(...)` call: defaults
(`velocity = Math.random() * explosionPower`,
`hueVariation = palette.hue + (Math.random() - 0.5) * 30`,
`lightness = randomRange(45, 55)`, `size = baseSize`,
`decay = randomRange(0.01, 0.02)`, `gravity = 0.04`)
followed by the style-specific `switch` adjustments. -/
def particleParams (style : ExplosionStyle) (paletteHue : ℤ)
    (explosionPower baseSize : ℚ) (r : ParticleRoll) : ParticleParams :=
  let velocity := r.rVelocity * explosionPower
  let hueVariation := (paletteHue : ℚ) + (r.rHue - 1/2) * 30
  let lightness := randomRange 45 55 r.rLightness
  let size := baseSize
  let decay := randomRange (1/100) (2/100) r.rDecay
  let gravity := (4/100 : ℚ)
  match style with
  | .ring =>
      { velocity := explosionPower * (85/100 + r.rStyleVelocity * (30/100))
        hueVariation := hueVariation
        lightness := randomRange 45 55 r.rStyleLightness
        size := size
        decay := randomRange (15/1000) (25/1000) r.rStyleDecay
        gravity := gravity }
  | .burst =>
      { velocity := if r.rGate > 7/10 then velocity * (18/10) else velocity
        hueVariation := hueVariation
        lightness := randomRange 45 58 r.rStyleLightness
        size := size
        decay := decay
        gravity := gravity }
  | .willow =>
      { velocity := explosionPower * randomRange (3/10) (7/10) r.rStyleVelocity
        hueVariation :=
          if r.rGate > 7/10 then (((paletteHue + 180) % 360 : ℤ) : ℚ)
          else hueVariation
        lightness := randomRange 45 55 r.rStyleLightness
        size := size
        decay := randomRange (8/1000) (15/1000) r.rStyleDecay
        gravity := 8/100 }
  | .chrysanthemum =>
      { velocity := explosionPower * randomRange (5/10) 1 r.rStyleVelocity
        hueVariation := hueVariation
        lightness :=
          if r.rGate > 7/10 then randomRange 50 60 r.rStyleLightness
          else lightness
        size := size
        decay := decay
        gravity := gravity }
  | .circle =>
      { velocity := velocity
        hueVariation := hueVariation
        lightness := lightness
        size := size
        decay := decay
        gravity := gravity }

/-- Construction of one pooled particle:
`new Particle(x, y, hueVariation, {x: cos(angle)*velocity, y: sin(angle)*velocity}, lightness, size)`
followed by the post-construction field assignments
`particle.decay = decay; particle.gravity = gravity`. -/
def buildParticle (x y : ℚ) (pp : ParticleParams) (r : ParticleRoll) : Particle :=
  let p := Particle.create x y pp.hueVariation
      (r.cosAngle * pp.velocity, r.sinAngle * pp.velocity)
      pp.lightness pp.size r.rCtorLightness r.rCtorDecay r.rCtorSize
  { p with decay := pp.decay, gravity := pp.gravity }

/-- All `Math.random()` draws consumed by one `triggerFirework` call, made
explicit: palette and style choice, the size-class draw, the three
`randomRange` draws of the chosen size branch, and one `ParticleRoll` per
loop iteration. -/
structure FireworkRoll where
  rPalette : ℚ
  rStyle : ℚ
  sizeClass : ℚ
  rCount : ℚ
  rPower : ℚ
  rBase : ℚ
  prolls : ℕ → ParticleRoll

/-- The size-class branch of `triggerFirework`:
`(particleCount, explosionPower, baseSize)` for small (`sizeClass < 0.3`),
medium (`sizeClass < 0.7`) and large fireworks. -/
def sizeParams (roll : FireworkRoll) : ℚ × ℚ × ℚ :=
  if roll.sizeClass < 3/10 then
    (randomRange 70 110 roll.rCount, randomRange 5 8 roll.rPower,
      randomRange (7/2) 5 roll.rBase)
  else if roll.sizeClass < 7/10 then
    (randomRange 120 180 roll.rCount, randomRange 8 11 roll.rPower,
      randomRange (9/2) 6 roll.rBase)
  else
    (randomRange 200 300 roll.rCount, randomRange 10 14 roll.rPower,
      randomRange (11/2) (15/2) roll.rBase)

/-- Number of iterations of `for (let i = 0; i < particleCount; i++)` for the
(fractional) JS number `particleCount`: the count of naturals below it,
i.e. `⌈particleCount⌉` for a nonnegative bound. -/
def loopCount (particleCount : ℚ) : ℕ := ⌈particleCount⌉₊

/-- The batch of particles appended by one accepted `triggerFirework` call
at spawn point `(x, y)`. -/
def explosionBatch (x y : ℚ) (roll : FireworkRoll) : List Particle :=
  let palette := randomChoice COLOR_PALETTES 0 roll.rPalette
  let style := randomChoice EXPLOSION_STYLES .circle roll.rStyle
  let ps := sizeParams roll
  (List.range (loopCount ps.1)).map fun i =>
    buildParticle x y (particleParams style palette ps.2.1 ps.2.2 (roll.prolls i))
      (roll.prolls i)

/-- `triggerFirework(x, y)` acting on the particle pool: the call returns
without creating any particle when the live count exceeds `MAX_PARTICLES`,
and otherwise pushes the whole rolled batch. -/
def triggerFirework (pool : List Particle) (x y : ℚ) (roll : FireworkRoll) :
    List Particle :=
  if pool.length > MAX_PARTICLES then pool
  else pool ++ explosionBatch x y roll

/-- The per-frame pool pass of `draw` (step 6): every live particle is
updated, then the pool is compacted in place, keeping exactly the
non-dead particles in order (equivalent to map-then-filter). -/
def updatePool (pool : List Particle) : List Particle :=
  (pool.map Particle.update).filter fun p => ! p.isDead

/-- One hand observation delivered by the hand-tracking callback: the
handedness label, the wrist landmark (`landmarks[0]`) and the four
fingertip landmarks (`landmarks[8/12/16/20]`), all normalized points. -/
structure HandObservation where
  label : Lane
  wrist : ℚ × ℚ
  tipIndex : ℚ × ℚ
  tipMiddle : ℚ × ℚ
  tipRing : ℚ × ℚ
  tipPinky : ℚ × ℚ

/-- Wrist-to-fingertip Euclidean distance
`Math.sqrt(dx*dx + dy*dy)` with `dx = tip.x - wrist.x`,
`dy = tip.y - wrist.y`. -/
noncomputable def tipDistance (w t : ℚ × ℚ) : ℝ :=
  Real.sqrt (((t.1 - w.1 : ℚ) : ℝ) * ((t.1 - w.1 : ℚ) : ℝ) +
    ((t.2 - w.2 : ℚ) : ℝ) * ((t.2 - w.2 : ℚ) : ℝ))

/-- Average wrist-to-fingertip distance of `onResults` (sum over the four
fingertips, divided by 4). -/
noncomputable def avgTipDistance (o : HandObservation) : ℝ :=
  (tipDistance o.wrist o.tipIndex + tipDistance o.wrist o.tipMiddle +
    tipDistance o.wrist o.tipRing + tipDistance o.wrist o.tipPinky) / 4

/-- Detection logic of `onResults`: average distance `< 0.25` is a fist,
otherwise the hand is open. -/
noncomputable def classifyHand (o : HandObservation) : HandState :=
  if avgTipDistance o < 1/4 then HandState.FIST else HandState.OPEN

/-- The per-observation loop of `onResults`: each observation, in order,
overwrites its lane's position with the wrist point and its lane's state
with the classified state. -/
noncomputable def runObservations :
    List HandObservation → (Lane → HandState) → (Lane → ℚ × ℚ) →
      (Lane → HandState) × (Lane → ℚ × ℚ)
  | [], st, pos => (st, pos)
  | o :: rest, st, pos =>
      runObservations rest (Function.update st o.label (classifyHand o))
        (Function.update pos o.label o.wrist)

/-- One full `onResults` frame: run the observation loop, then force every
lane missing from this frame's observations (not in `foundHands`) to
UNKNOWN. -/
noncomputable def processHands (obs : List HandObservation) (st : Lane → HandState)
    (pos : Lane → ℚ × ℚ) : (Lane → HandState) × (Lane → ℚ × ℚ) :=
  let r := runObservations obs st pos
  (fun lane =>
      if obs.any fun o => decide (o.label = lane) then r.1 lane
      else HandState.UNKNOWN,
    r.2)

/-- The last observation carrying a given label, if any (the one whose
classification survives the `onResults` loop for that lane). -/
def lastObsFor : List HandObservation → Lane → Option HandObservation
  | [], _ => none
  | o :: rest, lane =>
      (lastObsFor rest lane).elim (if o.label = lane then some o else none) some

/-- Persistent trigger-controller state: the previous-frame hand state of
each lane (`prevHandStateRef`) and each lane's last-trigger timestamp in
milliseconds (`lastTriggerTime`). -/
structure TrigState where
  prev : Lane → HandState
  lastTrigger : Lane → ℤ

/-- `bothHandsOpen`: both lanes report OPEN this frame. -/
def bothHandsOpen (cur : Lane → HandState) : Bool :=
  decide (cur Lane.left = HandState.OPEN) &&
    decide (cur Lane.right = HandState.OPEN)

/-- The per-lane trigger decision of `draw`: no normal trigger during the
grand finale; otherwise fire at the mirrored screen position on a rising
edge into OPEN that is more than 250 ms after the lane's last trigger
(`justOpened && now - lastTriggerTime > 250`). -/
def laneFire (bOpen : Bool) (now : ℤ) (width height : ℚ)
    (state prevState : HandState) (pos : ℚ × ℚ) (lastT : ℤ) :
    Option (ℚ × ℚ) :=
  if bOpen then none
  else if state = HandState.OPEN ∧ prevState ≠ HandState.OPEN ∧ now - lastT > 250 then
    some ((1 - pos.1) * width, pos.2 * height)
  else none

/-- Result of the input-logic section of one `draw` frame: the finale flag
written this frame, the normal-mode firework trigger issued per lane (if
any), and the next persistent trigger state. -/
structure FrameOut where
  finaleActive : Bool
  fired : Lane → Option (ℚ × ℚ)
  next : TrigState

/-- The input-logic section of one `draw` frame (steps 5 of the source):
compute `bothHandsOpen`, store it as the finale flag, run the per-lane
normal trigger (recording `now` as the lane's last-trigger time on fire),
and unconditionally overwrite each lane's previous-state slot with its
current state. -/
def stepFrame (width height : ℚ) (now : ℤ) (cur : Lane → HandState)
    (pos : Lane → ℚ × ℚ) (s : TrigState) : FrameOut :=
  let bOpen := bothHandsOpen cur
  { finaleActive := bOpen
    fired := fun lane =>
      laneFire bOpen now width height (cur lane) (s.prev lane) (pos lane)
        (s.lastTrigger lane)
    next :=
      { prev := cur
        lastTrigger := fun lane =>
          if (laneFire bOpen now width height (cur lane) (s.prev lane) (pos lane)
              (s.lastTrigger lane)).isSome then now
          else s.lastTrigger lane } }

/-- A concrete particle used to exercise the pool theorems. -/
def someParticle : Particle := Particle.create 0 0 0 (0, 0) 55 2 0 0 0

/-- A concrete all-zero per-particle roll. -/
def zeroParticleRoll : ParticleRoll :=
  { cosAngle := 0, sinAngle := 0, rVelocity := 0, rHue := 0, rLightness := 0,
    rDecay := 0, rGate := 0, rStyleVelocity := 0, rStyleDecay := 0,
    rStyleLightness := 0, rCtorLightness := 0, rCtorDecay := 0, rCtorSize := 0 }

/-- A concrete all-zero firework roll (small size class, palette 0,
circle style). -/
def zeroFireworkRoll : FireworkRoll :=
  { rPalette := 0, rStyle := 0, sizeClass := 0, rCount := 0, rPower := 0,
    rBase := 0, prolls := fun _ => zeroParticleRoll }

/-- A concrete pool whose live count exceeds the cap. -/
def overfullPool : List Particle := List.replicate 2001 someParticle

/-- A concrete hand-state reading: left lane OPEN, right lane FIST. -/
def curLeftOpenOnly : Lane → HandState
  | .left => HandState.OPEN
  | .right => HandState.FIST

/-- A concrete hand-state reading: both lanes OPEN. -/
def curBothOpen : Lane → HandState := fun _ => HandState.OPEN

/-- A concrete all-UNKNOWN, zero-timestamp trigger state. -/
def initialTrigState : TrigState :=
  { prev := fun _ => HandState.UNKNOWN, lastTrigger := fun _ => 0 }

/-- Concrete origin hand positions. -/
def zeroPos : Lane → ℚ × ℚ := fun _ => (0, 0)

/-- A concrete observation of a left hand with all landmarks at the
origin. -/
def originObs : HandObservation :=
  { label := Lane.left, wrist := (0, 0), tipIndex := (0, 0),
    tipMiddle := (0, 0), tipRing := (0, 0), tipPinky := (0, 0) }

end Fireworks

namespace Fireworks

/-- Membership bounds of `randomRange`: for a draw in `[0,1)` the result is
uniform on `[min, max)`. -/
theorem randomRange_mem (a b r : ℚ) (hab : a < b) (h0 : 0 ≤ r) (h1 : r < 1) :
    a ≤ randomRange a b r ∧ randomRange a b r < b := by
  unfold randomRange
  constructor <;> nlinarith

/-- `triggerFirework` leaves an over-cap pool untouched. -/
theorem triggerFirework_drop (pool : List Particle) (x y : ℚ)
    (roll : FireworkRoll) (h : pool.length > MAX_PARTICLES) :
    triggerFirework pool x y roll = pool := by
  simp [triggerFirework, h]

/-- `triggerFirework` appends the full rolled batch to a pool at or below
the cap. -/
theorem triggerFirework_accept (pool : List Particle) (x y : ℚ)
    (roll : FireworkRoll) (h : pool.length ≤ MAX_PARTICLES) :
    triggerFirework pool x y roll = pool ++ explosionBatch x y roll := by
  simp [triggerFirework, not_lt.mpr h]

/-- Claim C3: for every particle, `update()` equals the composition, in this
exact order, of: velocity scaled by friction on both axes, then gravity added
to `vy`, then velocity added to position, then decay subtracted from alpha;
and `isDead()` holds exactly when `alpha ≤ 0`. -/
theorem update_is_ordered_composition (p : Particle) :
    p.update = applyDecay (applyVelocity (applyGravity (applyFriction p))) ∧
    (p.isDead = true ↔ p.alpha ≤ 0) := by
  constructor
  · rfl
  · simp [Particle.isDead]

/-- Claim C2: an explosion request made while the live count exceeds the cap
of 2000 creates zero particles and leaves the pool untouched; a request made
while the live count is at or below the cap appends its full rolled batch. -/
theorem pool_cap_drop_and_accept (pool : List Particle) (x y : ℚ)
    (roll : FireworkRoll) :
    (pool.length > MAX_PARTICLES → triggerFirework pool x y roll = pool) ∧
    (pool.length ≤ MAX_PARTICLES →
      triggerFirework pool x y roll = pool ++ explosionBatch x y roll) :=
  ⟨triggerFirework_drop pool x y roll, triggerFirework_accept pool x y roll⟩

/-- Witness for C2 at concrete inputs: a 2001-particle pool drops the
request; the empty pool accepts the full batch. -/
theorem pool_cap_drop_and_accept_witness :
    triggerFirework overfullPool 0 0 zeroFireworkRoll = overfullPool ∧
    triggerFirework [] 0 0 zeroFireworkRoll = [] ++ explosionBatch 0 0 zeroFireworkRoll := by
  refine ⟨(pool_cap_drop_and_accept overfullPool 0 0 zeroFireworkRoll).1 ?_,
    (pool_cap_drop_and_accept [] 0 0 zeroFireworkRoll).2 ?_⟩
  · have h : overfullPool.length = 2001 := by
      rw [overfullPool, List.length_replicate]
    rw [h, MAX_PARTICLES]
    norm_num
  · rw [List.length_nil, MAX_PARTICLES]
    norm_num

/-- Claim C10: a rolled batch has at most 300 particles, so a trigger call
keeps the live count at or below 2300 (the cap check accepts any pool of at
most 2000 particles and one accepted batch adds at most 300), and the
per-frame update pass only shrinks the pool. -/
theorem pool_bounded_by_2300 (pool : List Particle) (x y : ℚ)
    (roll : FireworkRoll) (hc0 : 0 ≤ roll.rCount) (hc1 : roll.rCount < 1)
    (hlen : pool.length ≤ 2300) :
    (explosionBatch x y roll).length ≤ 300 ∧
    (triggerFirework pool x y roll).length ≤ 2300 ∧
    (updatePool pool).length ≤ pool.length := by
  have hcount : (sizeParams roll).1 ≤ 300 := by
    rcases lt_or_le roll.sizeClass (3/10) with h | h
    · have := (randomRange_mem 70 110 roll.rCount (by norm_num) hc0 hc1).2
      simp only [sizeParams, if_pos h]
      linarith
    · rcases lt_or_le roll.sizeClass (7/10) with h2 | h2
      · have := (randomRange_mem 120 180 roll.rCount (by norm_num) hc0 hc1).2
        simp only [sizeParams, if_neg (not_lt.mpr h), if_pos h2]
        linarith
      · have := (randomRange_mem 200 300 roll.rCount (by norm_num) hc0 hc1).2
        simp only [sizeParams, if_neg (not_lt.mpr h), if_neg (not_lt.mpr h2)]
        linarith
  have hbatch : (explosionBatch x y roll).length ≤ 300 := by
    simp only [explosionBatch, List.length_map, List.length_range, loopCount]
    exact Nat.ceil_le.mpr (by exact_mod_cast hcount)
  refine ⟨hbatch, ?_, ?_⟩
  · rcases le_or_lt pool.length MAX_PARTICLES with h | h
    · rw [triggerFirework_accept pool x y roll h]
      simp only [List.length_append]
      have : pool.length ≤ 2000 := h
      omega
    · rw [triggerFirework_drop pool x y roll h]
      exact hlen
  · calc ((pool.map Particle.update).filter fun p => ! p.isDead).length
        ≤ (pool.map Particle.update).length := List.length_filter_le _ _
      _ = pool.length := List.length_map _ _

/-- Witness for C10 at concrete inputs: the all-zero roll on the empty
pool. -/
theorem pool_bounded_by_2300_witness :
    (explosionBatch 0 0 zeroFireworkRoll).length ≤ 300 ∧
    (triggerFirework [] 0 0 zeroFireworkRoll).length ≤ 2300 ∧
    (updatePool ([] : List Particle)).length ≤ ([] : List Particle).length :=
  pool_bounded_by_2300 [] 0 0 zeroFireworkRoll (by norm_num [zeroFireworkRoll])
    (by norm_num [zeroFireworkRoll]) (by simp)

/-- Claim C6: the size class `r ∈ [0,1)` determines the rolled batch
parameters: `r < 0.3` gives count in `[70,110)`, power in `[5,8)`, base
radius in `[3.5,5)`; `0.3 ≤ r < 0.7` gives count in `[120,180)`, power in
`[8,11)`, base radius in `[4.5,6)`; `r ≥ 0.7` gives count in `[200,300)`,
power in `[10,14)`, base radius in `[5.5,7.5)`, each an affine image of a
uniform `[0,1)` draw. -/
theorem size_class_parameters (roll : FireworkRoll)
    (_hs0 : 0 ≤ roll.sizeClass) (hs1 : roll.sizeClass < 1)
    (hc0 : 0 ≤ roll.rCount) (hc1 : roll.rCount < 1)
    (hp0 : 0 ≤ roll.rPower) (hp1 : roll.rPower < 1)
    (hb0 : 0 ≤ roll.rBase) (hb1 : roll.rBase < 1) :
    (roll.sizeClass < 3/10 →
      (70 ≤ (sizeParams roll).1 ∧ (sizeParams roll).1 < 110) ∧
      (5 ≤ (sizeParams roll).2.1 ∧ (sizeParams roll).2.1 < 8) ∧
      (7/2 ≤ (sizeParams roll).2.2 ∧ (sizeParams roll).2.2 < 5)) ∧
    (3/10 ≤ roll.sizeClass → roll.sizeClass < 7/10 →
      (120 ≤ (sizeParams roll).1 ∧ (sizeParams roll).1 < 180) ∧
      (8 ≤ (sizeParams roll).2.1 ∧ (sizeParams roll).2.1 < 11) ∧
      (9/2 ≤ (sizeParams roll).2.2 ∧ (sizeParams roll).2.2 < 6)) ∧
    (7/10 ≤ roll.sizeClass →
      (200 ≤ (sizeParams roll).1 ∧ (sizeParams roll).1 < 300) ∧
      (10 ≤ (sizeParams roll).2.1 ∧ (sizeParams roll).2.1 < 14) ∧
      (11/2 ≤ (sizeParams roll).2.2 ∧ (sizeParams roll).2.2 < 15/2)) := by
  refine ⟨fun h => ?_, fun h h2 => ?_, fun h => ?_⟩
  · simp only [sizeParams, if_pos h]
    exact ⟨randomRange_mem 70 110 roll.rCount (by norm_num) hc0 hc1,
      randomRange_mem 5 8 roll.rPower (by norm_num) hp0 hp1,
      randomRange_mem (7/2) 5 roll.rBase (by norm_num) hb0 hb1⟩
  · simp only [sizeParams, if_neg (not_lt.mpr h), if_pos h2]
    exact ⟨randomRange_mem 120 180 roll.rCount (by norm_num) hc0 hc1,
      randomRange_mem 8 11 roll.rPower (by norm_num) hp0 hp1,
      randomRange_mem (9/2) 6 roll.rBase (by norm_num) hb0 hb1⟩
  · have h3 : ¬ roll.sizeClass < 3/10 := not_lt.mpr (by linarith)
    simp only [sizeParams, if_neg h3, if_neg (not_lt.mpr h)]
    exact ⟨randomRange_mem 200 300 roll.rCount (by norm_num) hc0 hc1,
      randomRange_mem 10 14 roll.rPower (by norm_num) hp0 hp1,
      randomRange_mem (11/2) (15/2) roll.rBase (by norm_num) hb0 hb1⟩

/-- Witness for C6 at a concrete roll (all draws zero: small class). -/
theorem size_class_parameters_witness :
    (70 ≤ (sizeParams zeroFireworkRoll).1 ∧ (sizeParams zeroFireworkRoll).1 < 110) ∧
    (5 ≤ (sizeParams zeroFireworkRoll).2.1 ∧ (sizeParams zeroFireworkRoll).2.1 < 8) ∧
    (7/2 ≤ (sizeParams zeroFireworkRoll).2.2 ∧ (sizeParams zeroFireworkRoll).2.2 < 5) :=
  (size_class_parameters zeroFireworkRoll (by norm_num [zeroFireworkRoll])
    (by norm_num [zeroFireworkRoll]) (by norm_num [zeroFireworkRoll])
    (by norm_num [zeroFireworkRoll]) (by norm_num [zeroFireworkRoll])
    (by norm_num [zeroFireworkRoll]) (by norm_num [zeroFireworkRoll])
    (by norm_num [zeroFireworkRoll])).1 (by norm_num [zeroFireworkRoll])

/-- Claim C7: in a ring-style batch every particle's rolled speed lies in
`power × [0.85, 1.15]` and the constructed particle's decay lies in
`[0.015, 0.025]`. -/
theorem ring_speed_and_decay (x y : ℚ) (paletteHue : ℤ) (power baseSize : ℚ)
    (r : ParticleRoll) (hpow : 0 ≤ power)
    (hv0 : 0 ≤ r.rStyleVelocity) (hv1 : r.rStyleVelocity < 1)
    (hd0 : 0 ≤ r.rStyleDecay) (hd1 : r.rStyleDecay < 1) :
    (power * (85/100) ≤ (particleParams .ring paletteHue power baseSize r).velocity ∧
      (particleParams .ring paletteHue power baseSize r).velocity ≤ power * (115/100)) ∧
    (15/1000 ≤ (buildParticle x y (particleParams .ring paletteHue power baseSize r) r).decay ∧
      (buildParticle x y (particleParams .ring paletteHue power baseSize r) r).decay ≤ 25/1000) := by
  have hdec := randomRange_mem (15/1000) (25/1000) r.rStyleDecay (by norm_num) hd0 hd1
  constructor
  · simp only [particleParams]
    constructor <;> nlinarith
  · simp only [buildParticle, particleParams]
    exact ⟨hdec.1, le_of_lt hdec.2⟩

/-- Witness for C7 at a concrete input: power 10 and the all-zero roll. -/
theorem ring_speed_and_decay_witness :
    ((10 : ℚ) * (85/100) ≤ (particleParams .ring 0 10 2 zeroParticleRoll).velocity ∧
      (particleParams .ring 0 10 2 zeroParticleRoll).velocity ≤ 10 * (115/100)) ∧
    (15/1000 ≤ (buildParticle 0 0 (particleParams .ring 0 10 2 zeroParticleRoll) zeroParticleRoll).decay ∧
      (buildParticle 0 0 (particleParams .ring 0 10 2 zeroParticleRoll) zeroParticleRoll).decay ≤ 25/1000) :=
  ring_speed_and_decay 0 0 0 10 2 zeroParticleRoll (by norm_num)
    (by norm_num [zeroParticleRoll]) (by norm_num [zeroParticleRoll])
    (by norm_num [zeroParticleRoll]) (by norm_num [zeroParticleRoll])

/-- A concrete roll exhibiting the lightness jitter added by the `Particle`
constructor on top of the composer's `[45,55)` lightness roll. -/
def lightnessCexRoll : ParticleRoll :=
  { cosAngle := 0, sinAngle := 0, rVelocity := 0, rHue := 0, rLightness := 9/10,
    rDecay := 0, rGate := 0, rStyleVelocity := 0, rStyleDecay := 0,
    rStyleLightness := 0, rCtorLightness := 9/10, rCtorDecay := 0, rCtorSize := 0 }

/-- Counterexample to C8 as stated: for a circle-style explosion with
palette hue 0, power 1, base size 2 and draws
`rLightness = 0.9`, `rCtorLightness = 0.9`, the constructed particle's
lightness is `54 + 9 = 63`, outside `[45,55]` (the constructor adds
`Math.random() * 10` on top of the composer's lightness roll). -/
theorem circle_lightness_counterexample :
    (buildParticle 0 0 (particleParams .circle 0 1 2 lightnessCexRoll) lightnessCexRoll).lightness = 63 ∧
    ¬ (buildParticle 0 0 (particleParams .circle 0 1 2 lightnessCexRoll) lightnessCexRoll).lightness ≤ 55 := by
  norm_num [buildParticle, particleParams, Particle.create, randomRange, lightnessCexRoll]

/-- Claim C8 (amended): for every particle of a circle-style (no-override)
explosion, the constructed particle's lightness lies in `[45,65)` (a base
roll uniform in `[45,55)` plus a constructor jitter uniform in `[0,10)`),
its hue is within ±15° of the palette hue, its decay is in `[0.01,0.02]`,
and its gravity equals 0.04. -/
theorem circle_particle_fields (x y : ℚ) (paletteHue : ℤ) (power baseSize : ℚ)
    (r : ParticleRoll)
    (hh0 : 0 ≤ r.rHue) (hh1 : r.rHue < 1)
    (hl0 : 0 ≤ r.rLightness) (hl1 : r.rLightness < 1)
    (hd0 : 0 ≤ r.rDecay) (hd1 : r.rDecay < 1)
    (hcl0 : 0 ≤ r.rCtorLightness) (hcl1 : r.rCtorLightness < 1)
    (p : Particle)
    (hp : p = buildParticle x y (particleParams .circle paletteHue power baseSize r) r) :
    (45 ≤ p.lightness ∧ p.lightness < 65) ∧
    |p.hue - (paletteHue : ℚ)| ≤ 15 ∧
    (1/100 ≤ p.decay ∧ p.decay ≤ 2/100) ∧
    p.gravity = 4/100 := by
  subst hp
  have hlt := randomRange_mem 45 55 r.rLightness (by norm_num) hl0 hl1
  have hdec := randomRange_mem (1/100) (2/100) r.rDecay (by norm_num) hd0 hd1
  simp only [buildParticle, particleParams, Particle.create, randomRange] at *
  refine ⟨⟨by nlinarith, by nlinarith⟩, ?_, ⟨hdec.1, le_of_lt hdec.2⟩, by trivial⟩
  rw [abs_le]
  constructor <;> nlinarith

/-- Witness for the amended C8 at a concrete input: the all-zero roll. -/
theorem circle_particle_fields_witness :
    (45 ≤ (buildParticle 0 0 (particleParams .circle 0 1 2 zeroParticleRoll) zeroParticleRoll).lightness ∧
      (buildParticle 0 0 (particleParams .circle 0 1 2 zeroParticleRoll) zeroParticleRoll).lightness < 65) ∧
    |(buildParticle 0 0 (particleParams .circle 0 1 2 zeroParticleRoll) zeroParticleRoll).hue - ((0 : ℤ) : ℚ)| ≤ 15 ∧
    (1/100 ≤ (buildParticle 0 0 (particleParams .circle 0 1 2 zeroParticleRoll) zeroParticleRoll).decay ∧
      (buildParticle 0 0 (particleParams .circle 0 1 2 zeroParticleRoll) zeroParticleRoll).decay ≤ 2/100) ∧
    (buildParticle 0 0 (particleParams .circle 0 1 2 zeroParticleRoll) zeroParticleRoll).gravity = 4/100 :=
  circle_particle_fields 0 0 0 1 2 zeroParticleRoll
    (by norm_num [zeroParticleRoll]) (by norm_num [zeroParticleRoll])
    (by norm_num [zeroParticleRoll]) (by norm_num [zeroParticleRoll])
    (by norm_num [zeroParticleRoll]) (by norm_num [zeroParticleRoll])
    (by norm_num [zeroParticleRoll]) (by norm_num [zeroParticleRoll])
    _ rfl

/-- Claim C9: over a pool pass, `update()` never changes decay, friction,
gravity or size; alpha strictly decreases for any particle with positive
decay; a particle's updated image survives in the pool exactly when its
alpha is still above 0 after the update; and the updated pool holds no dead
particle (dead particles are gone, never reused). -/
theorem pool_particle_invariants (pool : List Particle) (p : Particle)
    (hp : p ∈ pool) (hd : 0 < p.decay) :
    (p.update.decay = p.decay ∧ p.update.friction = p.friction ∧
      p.update.gravity = p.gravity ∧ p.update.size = p.size) ∧
    p.update.alpha < p.alpha ∧
    (p.update ∈ updatePool pool ↔ ¬ p.update.alpha ≤ 0) ∧
    (∀ q ∈ updatePool pool, ¬ q.alpha ≤ 0) := by
  refine ⟨⟨rfl, rfl, rfl, rfl⟩, ?_, ?_, ?_⟩
  · simp only [Particle.update]
    linarith
  · constructor
    · intro hmem
      rcases List.mem_filter.mp hmem with ⟨-, halive⟩
      simpa [Particle.isDead] using halive
    · intro halive
      refine List.mem_filter.mpr ⟨List.mem_map_of_mem Particle.update hp, ?_⟩
      simpa [Particle.isDead] using halive
  · intro q hq
    rcases List.mem_filter.mp hq with ⟨-, halive⟩
    simpa [Particle.isDead] using halive

/-- Witness for C9 at a concrete input: the singleton pool holding the
sample particle (decay `0.012 > 0`). -/
theorem pool_particle_invariants_witness :
    (someParticle.update.decay = someParticle.decay ∧
      someParticle.update.friction = someParticle.friction ∧
      someParticle.update.gravity = someParticle.gravity ∧
      someParticle.update.size = someParticle.size) ∧
    someParticle.update.alpha < someParticle.alpha ∧
    (someParticle.update ∈ updatePool [someParticle] ↔
      ¬ someParticle.update.alpha ≤ 0) ∧
    (∀ q ∈ updatePool [someParticle], ¬ q.alpha ≤ 0) :=
  pool_particle_invariants [someParticle] someParticle (by simp)
    (by norm_num [someParticle, Particle.create])

/-- An observation returned by `lastObsFor` belongs to the list and carries
the queried label. -/
theorem lastObsFor_some {obs : List HandObservation} {lane : Lane}
    {o : HandObservation} (h : lastObsFor obs lane = some o) :
    o ∈ obs ∧ o.label = lane := by
  induction obs with
  | nil => simp [lastObsFor] at h
  | cons a rest ih =>
    simp only [lastObsFor] at h
    cases hrest : lastObsFor rest lane with
    | some o2 =>
      rw [hrest] at h
      simp only [Option.elim] at h
      have he : o2 = o := Option.some.inj h
      subst he
      exact ⟨List.mem_cons_of_mem a (ih hrest).1, (ih hrest).2⟩
    | none =>
      rw [hrest] at h
      simp only [Option.elim] at h
      by_cases hl : a.label = lane
      · rw [if_pos hl] at h
        have he : a = o := Option.some.inj h
        subst he
        exact ⟨List.mem_cons_self _ _, hl⟩
      · rw [if_neg hl] at h
        cases h

/-- The `onResults` loop leaves an absent lane at its prior state and a
present lane at the classification of its last observation. -/
theorem runObservations_state (obs : List HandObservation) (lane : Lane) :
    ∀ (st : Lane → HandState) (pos : Lane → ℚ × ℚ),
      (runObservations obs st pos).1 lane =
        (lastObsFor obs lane).elim (st lane) classifyHand := by
  induction obs with
  | nil =>
    intro st pos
    rfl
  | cons a rest ih =>
    intro st pos
    simp only [runObservations]
    rw [ih]
    cases hrest : lastObsFor rest lane with
    | some o2 => simp [lastObsFor, hrest]
    | none =>
      by_cases hl : a.label = lane
      · subst hl
        simp [lastObsFor, hrest]
      · have hl2 : lane ≠ a.label := fun h2 => hl h2.symm
        simp [lastObsFor, hrest, hl, Function.update_noteq hl2]

/-- Claim C5: in every processed frame of observations, a lane with no
observation is forced to UNKNOWN regardless of its previous state, and a
lane with an observation takes FIST exactly when the average
wrist-to-fingertip distance of its (last) observation is below 0.25, and
OPEN otherwise. -/
theorem classifier_frame_rule (obs : List HandObservation)
    (st : Lane → HandState) (pos : Lane → ℚ × ℚ) (lane : Lane) :
    ((∀ o ∈ obs, o.label ≠ lane) →
      (processHands obs st pos).1 lane = HandState.UNKNOWN) ∧
    ∀ o, lastObsFor obs lane = some o →
      (processHands obs st pos).1 lane =
        if avgTipDistance o < 1/4 then HandState.FIST else HandState.OPEN := by
  constructor
  · intro hnone
    have hany : (obs.any fun o => decide (o.label = lane)) = false := by
      rw [List.any_eq_false]
      intro o hmem
      simp only [decide_eq_true_eq]
      exact hnone o hmem
    simp only [processHands]
    rw [if_neg]
    rw [hany]
    simp
  · intro o ho
    have hmem := lastObsFor_some ho
    have hany : (obs.any fun o2 => decide (o2.label = lane)) = true := by
      simp only [List.any_eq_true, decide_eq_true_eq]
      exact ⟨o, hmem.1, hmem.2⟩
    simp only [processHands, hany, if_true]
    rw [runObservations_state obs lane st pos, ho]
    rfl

/-- Witness for C5 at concrete inputs: the empty observation frame forces
UNKNOWN on a previously OPEN lane; an all-at-origin left-hand observation
classifies as FIST (average distance 0). -/
theorem classifier_frame_rule_witness :
    (processHands [] curBothOpen zeroPos).1 Lane.left = HandState.UNKNOWN ∧
    (processHands [originObs] curBothOpen zeroPos).1 Lane.left = HandState.FIST := by
  constructor
  · exact (classifier_frame_rule [] curBothOpen zeroPos Lane.left).1 (by simp)
  · have h := (classifier_frame_rule [originObs] curBothOpen zeroPos Lane.left).2
      originObs (by simp [lastObsFor, originObs])
    rw [h, if_pos]
    have hz : avgTipDistance originObs = 0 := by
      simp [avgTipDistance, tipDistance, originObs]
    rw [hz]
    norm_num

/-- The per-lane fire decision in normal (non-finale) mode, written as a
single conditional. -/
theorem laneFire_normal (now : ℤ) (width height : ℚ)
    (state prevState : HandState) (pos : ℚ × ℚ) (lastT : ℤ) :
    laneFire false now width height state prevState pos lastT =
      if state = HandState.OPEN ∧ prevState ≠ HandState.OPEN ∧ now - lastT > 250 then
        some ((1 - pos.1) * width, pos.2 * height)
      else none := rfl

/-- Claim C1: with the system not in finale mode, a lane's firework trigger
fires in a frame exactly when the lane is OPEN, was not OPEN in the
previous frame, and more than 250 ms have passed since the lane's last
trigger; when it fires, the spawn point is the mirrored screen position
`((1 - x) * width, y * height)` and the lane's last-trigger timestamp
becomes the current time. -/
theorem normal_mode_trigger (width height : ℚ) (now : ℤ)
    (cur : Lane → HandState) (pos : Lane → ℚ × ℚ) (s : TrigState)
    (lane : Lane) (hmode : bothHandsOpen cur = false) :
    ((stepFrame width height now cur pos s).fired lane ≠ none ↔
      (cur lane = HandState.OPEN ∧ s.prev lane ≠ HandState.OPEN ∧
        now - s.lastTrigger lane > 250)) ∧
    ∀ pt, (stepFrame width height now cur pos s).fired lane = some pt →
      pt = ((1 - (pos lane).1) * width, (pos lane).2 * height) ∧
      (stepFrame width height now cur pos s).next.lastTrigger lane = now := by
  have hfired : (stepFrame width height now cur pos s).fired lane =
      if cur lane = HandState.OPEN ∧ s.prev lane ≠ HandState.OPEN ∧
          now - s.lastTrigger lane > 250 then
        some ((1 - (pos lane).1) * width, (pos lane).2 * height)
      else none := by
    show laneFire (bothHandsOpen cur) now width height (cur lane) (s.prev lane)
        (pos lane) (s.lastTrigger lane) = _
    rw [hmode, laneFire_normal]
  constructor
  · rw [hfired]
    by_cases hcond : cur lane = HandState.OPEN ∧ s.prev lane ≠ HandState.OPEN ∧
        now - s.lastTrigger lane > 250
    · simp [hcond]
    · simp [if_neg hcond, hcond]
  · intro pt hpt
    rw [hfired] at hpt
    by_cases hcond : cur lane = HandState.OPEN ∧ s.prev lane ≠ HandState.OPEN ∧
        now - s.lastTrigger lane > 250
    · rw [if_pos hcond] at hpt
      refine ⟨(Option.some.injEq _ _ ▸ hpt :).symm, ?_⟩
      show (if (laneFire (bothHandsOpen cur) now width height (cur lane)
          (s.prev lane) (pos lane) (s.lastTrigger lane)).isSome then now
        else s.lastTrigger lane) = now
      rw [hmode, laneFire_normal, if_pos hcond]
      rfl
    · rw [if_neg hcond] at hpt
      cases hpt

/-- Witness for C1 at concrete inputs: left lane OPEN with right lane FIST
(not finale), previous state UNKNOWN, last trigger at time 0, current time
300 ms. -/
theorem normal_mode_trigger_witness :
    ((stepFrame 100 100 300 curLeftOpenOnly zeroPos initialTrigState).fired Lane.left ≠ none ↔
      (curLeftOpenOnly Lane.left = HandState.OPEN ∧
        initialTrigState.prev Lane.left ≠ HandState.OPEN ∧
        (300 : ℤ) - initialTrigState.lastTrigger Lane.left > 250)) ∧
    ∀ pt, (stepFrame 100 100 300 curLeftOpenOnly zeroPos initialTrigState).fired Lane.left = some pt →
      pt = ((1 - (zeroPos Lane.left).1) * 100, (zeroPos Lane.left).2 * 100) ∧
      (stepFrame 100 100 300 curLeftOpenOnly zeroPos initialTrigState).next.lastTrigger Lane.left = 300 :=
  normal_mode_trigger 100 100 300 curLeftOpenOnly zeroPos initialTrigState
    Lane.left (by decide)

/-- Claim C4: the finale flag of a frame is set exactly when both lanes are
OPEN; while it is set no per-lane trigger fires; the previous-state slot of
every lane is overwritten with the current state on every frame regardless
of mode; and on the frame after a finale frame no per-lane trigger can
fire, whatever the new observations are. -/
theorem finale_mode_behavior (width height : ℚ) (now : ℤ)
    (cur : Lane → HandState) (pos : Lane → ℚ × ℚ) (s : TrigState) :
    ((stepFrame width height now cur pos s).finaleActive = true ↔
      (cur Lane.left = HandState.OPEN ∧ cur Lane.right = HandState.OPEN)) ∧
    ((stepFrame width height now cur pos s).finaleActive = true →
      ∀ lane, (stepFrame width height now cur pos s).fired lane = none) ∧
    (∀ lane, (stepFrame width height now cur pos s).next.prev lane = cur lane) ∧
    ((stepFrame width height now cur pos s).finaleActive = true →
      ∀ (now2 : ℤ) (cur2 : Lane → HandState) (pos2 : Lane → ℚ × ℚ) (lane : Lane),
        (stepFrame width height now2 cur2 pos2
          (stepFrame width height now cur pos s).next).fired lane = none) := by
  have hact : (stepFrame width height now cur pos s).finaleActive =
      bothHandsOpen cur := rfl
  refine ⟨?_, ?_, fun lane => rfl, ?_⟩
  · rw [hact]
    simp [bothHandsOpen]
  · intro hfin lane
    rw [hact] at hfin
    show laneFire (bothHandsOpen cur) now width height (cur lane) (s.prev lane)
        (pos lane) (s.lastTrigger lane) = none
    rw [hfin, laneFire]
    rfl
  · intro hfin now2 cur2 pos2 lane
    rw [hact] at hfin
    have hboth : cur Lane.left = HandState.OPEN ∧ cur Lane.right = HandState.OPEN := by
      simpa [bothHandsOpen] using hfin
    have hopen : cur lane = HandState.OPEN := by
      cases lane
      · exact hboth.1
      · exact hboth.2
    show laneFire (bothHandsOpen cur2) now2 width height (cur2 lane) (cur lane)
        (pos2 lane) _ = none
    rw [hopen, laneFire]
    simp

/-- Witness for C4 at concrete inputs: both lanes OPEN at time 0 activates
the finale, suppresses the left lane's trigger, and blocks any trigger on
the following frame at time 600 even with both lanes still OPEN. -/
theorem finale_mode_behavior_witness :
    (stepFrame 100 100 0 curBothOpen zeroPos initialTrigState).finaleActive = true ∧
    (stepFrame 100 100 0 curBothOpen zeroPos initialTrigState).fired Lane.left = none ∧
    (stepFrame 100 100 600 curBothOpen zeroPos
      (stepFrame 100 100 0 curBothOpen zeroPos initialTrigState).next).fired Lane.left = none := by
  have h := finale_mode_behavior 100 100 0 curBothOpen zeroPos initialTrigState
  have hact : (stepFrame 100 100 0 curBothOpen zeroPos initialTrigState).finaleActive = true :=
    h.1.mpr ⟨rfl, rfl⟩
  exact ⟨hact, h.2.1 hact Lane.left, h.2.2.2 hact 600 curBothOpen zeroPos Lane.left⟩

end Fireworks
